import Mathlib

/-!
Shallow embedding of the user-account service (`server/main.go`):
the pure validation/normalization functions and the two RPC handlers
`RegisterUser` and `LoginUser`, with the MongoDB `users` collection
modelled as a list of `User` documents guarded by the three unique
indexes (email, user_name, phone) provisioned at startup.
-/

namespace UserService

/-- The code points carrying Go's White_Space property, which is what
`unicode.IsSpace` (and hence `strings.TrimSpace`) tests. -/
def isSpaceCode (n : Nat) : Prop :=
  (9 ≤ n ∧ n ≤ 13) ∨ n = 32 ∨ n = 0x85 ∨ n = 0xA0 ∨ n = 0x1680 ∨
  (0x2000 ≤ n ∧ n ≤ 0x200A) ∨ n = 0x2028 ∨ n = 0x2029 ∨ n = 0x202F ∨
  n = 0x205F ∨ n = 0x3000

instance (n : Nat) : Decidable (isSpaceCode n) := by
  unfold isSpaceCode; infer_instance

/-- Go `unicode.IsSpace` on a rune. -/
def goIsSpace (c : Char) : Bool := decide (isSpaceCode c.toNat)

/-- The UTF-8 byte width of one rune; Go's `len` on a string counts bytes. -/
def runeBytes (c : Char) : Nat :=
  if c.toNat < 0x80 then 1
  else if c.toNat < 0x800 then 2
  else if c.toNat < 0x10000 then 3
  else 4

/-- Go `len(s)` on a (valid UTF-8) string: its byte length. -/
def goLen (s : String) : Nat := (s.data.map runeBytes).sum

/-- Drop whitespace runes from both ends of a rune list. -/
def trimList (l : List Char) : List Char :=
  ((l.dropWhile goIsSpace).reverse.dropWhile goIsSpace).reverse

/-- Go `strings.TrimSpace`. -/
def goTrimSpace (s : String) : String := ⟨trimList s.data⟩

/-- Go `strings.ToLower`. Go consults the full Unicode case tables; the
service only compares strings produced by it, and this development only
evaluates it on the Basic Latin range, where `Char.toLower` agrees with
Go exactly (code points outside that range are left unchanged here). -/
def goToLower (s : String) : String := ⟨s.data.map Char.toLower⟩

/-- Go `strings.HasPrefix`. -/
def goStartsWith (s pre : String) : Bool := pre.data.isPrefixOf s.data

/-- Helper for Go `strings.Contains`: does `sub` occur as a contiguous
run inside `l`? -/
def hasSub : List Char → List Char → Bool
  | [], sub => sub.isEmpty
  | c :: rest, sub => sub.isPrefixOf (c :: rest) || hasSub rest sub

/-- Go `strings.Contains`. -/
def goContains (s sub : String) : Bool := hasSub s.data sub.data

/-- Go `strings.ReplaceAll(s, " ", "")`: removing every occurrence of the
one-byte substring `" "` deletes exactly the U+0020 runes. -/
def stripSpaces (l : List Char) : List Char := l.filter (fun c => c != ' ')

/-- The function `normalizePhoneNumber` from `server/main.go`.  `phone[1:]` slices off the
first byte; in the branch taken the first rune is the one-byte `'0'`, so it
is the tail of the rune list. -/
def normalizePhoneNumber (phone : String) : String :=
  let p : String := ⟨stripSpaces (trimList phone.data)⟩
  if goStartsWith p "0" && (goLen p == 10) then "254" ++ (⟨p.data.tail⟩ : String)
  else if goStartsWith p "7" && (goLen p == 9) then "254" ++ p
  else p

/-- Go `unicode.IsLetter`.  Go consults the full Unicode `L` category
tables; this embedding carries the Basic Latin letters and classifies
every other code point as a non-letter.  It agrees with Go on all code
points below `0x80` and on characters (such as `'€'`) that are not
letters in Unicode either; the development evaluates it only there. -/
def unicodeIsLetter (c : Char) : Bool := c.isAlpha

/-- Go `unicode.IsNumber`.  Same restriction as `unicodeIsLetter`: the
Basic Latin digits, agreeing with Go below `0x80` and on characters that
are not numbers in Unicode either. -/
def unicodeIsNumber (c : Char) : Bool := c.isDigit

/-- The function `isAlphanumeric` from `server/main.go`: the `for ... range` loop
returns `false` at the first rune that is neither a letter nor a number. -/
def isAlphanumeric (s : String) : Bool :=
  s.data.all (fun r => unicodeIsLetter r || unicodeIsNumber r)

/-- The registration request message (`RegisterMessageRequest`), with the
fields read by the handler through its getters. -/
structure RegisterMessageRequest where
  fullName : String
  userName : String
  emailAddress : String
  phoneNumber : String
  password : String
deriving DecidableEq, Repr

/-- The function `validateRegistration` from `server/main.go`: `nil` becomes `none`,
an `errors.New` message becomes `some` of its text. -/
def validateRegistration (req : RegisterMessageRequest) : Option String :=
  if goTrimSpace req.fullName == "" then some "full name is required"
  else
    let username := goTrimSpace req.userName
    if goLen username < 4 then some "username must be at least 4 characters"
    else if !isAlphanumeric username then some "username can only contain letters and numbers"
    else
      let email := goTrimSpace req.emailAddress
      if !goContains email "@" || !goContains email "." then some "invalid email format"
      else
        let phone := normalizePhoneNumber req.phoneNumber
        if goLen phone != 12 || !goStartsWith phone "254" then
          some "phone must be in 254XXXXXXXXX format (12 digits)"
        else none

/-- The persisted `User` document.  `time.Now()` timestamps are modelled
by a `Nat` clock value supplied to the handler. -/
structure User where
  fullName : String
  userName : String
  emailAddress : String
  phoneNumber : String
  passwordHash : String
  createdAt : Nat
  updatedAt : Nat
deriving DecidableEq, Repr

/-- gRPC status codes used by the two handlers. -/
inductive GrpcCode where
  | invalidArgument
  | alreadyExists
  | notFound
  | internal
deriving DecidableEq, Repr

/-- The registration response message (`RegisterMessageResponse`). -/
structure RegisterMessageResponse where
  userName : String
  message : String
  success : Bool
deriving DecidableEq, Repr

/-- Outcome of a `RegisterUser` call: the response, or a gRPC status error. -/
inductive RegisterOutcome where
  | ok (resp : RegisterMessageResponse)
  | err (code : GrpcCode) (msg : String)
deriving DecidableEq, Repr

/-- The login response message (`LoginMessageResponse`). -/
structure LoginMessageResponse where
  email : String
  userName : String
  password : String
deriving DecidableEq, Repr

/-- Outcome of a `LoginUser` call. -/
inductive LoginOutcome where
  | ok (resp : LoginMessageResponse)
  | err (code : GrpcCode) (msg : String)
deriving DecidableEq, Repr

/-- The `$or` filter of the pre-insert probe in `RegisterUser`: any stored
document whose `email`, `user_name` or `phone` equals the corresponding
normalized request field. -/
def registerFilter (req : RegisterMessageRequest) (u : User) : Bool :=
  u.emailAddress == goToLower (goTrimSpace req.emailAddress) ||
  u.userName == goToLower (goTrimSpace req.userName) ||
  u.phoneNumber == normalizePhoneNumber req.phoneNumber

/-- The user document built at step 3 of `RegisterUser`. -/
def newUserDoc (req : RegisterMessageRequest) (now : Nat) : User :=
  { fullName := goTrimSpace req.fullName
    userName := goToLower (goTrimSpace req.userName)
    emailAddress := goToLower (goTrimSpace req.emailAddress)
    phoneNumber := normalizePhoneNumber req.phoneNumber
    passwordHash := req.password
    createdAt := now
    updatedAt := now }

/-- The call `InsertOne` against the three unique indexes on `email`, `user_name`
and `phone` that `NewUserService` provisions: the insert reports a
duplicate key exactly when some stored document collides with the new one
on at least one of the three fields. -/
def duplicateKey (store : List User) (u : User) : Bool :=
  store.any (fun v =>
    v.emailAddress == u.emailAddress ||
    v.userName == u.userName ||
    v.phoneNumber == u.phoneNumber)

/-- The handler `RegisterUser` from `server/main.go`.  The collection is read twice —
once by the probe's `FindOne` and once by `InsertOne` — and a concurrent
writer may commit between the two, so the handler is given the store
snapshot seen by each operation (`probeStore`, `insertStore`); a purely
sequential call has `probeStore = insertStore`.  The result pairs the
RPC outcome with the collection state after the call. -/
def RegisterUser (probeStore insertStore : List User)
    (req : RegisterMessageRequest) (now : Nat) : RegisterOutcome × List User :=
  match validateRegistration req with
  | some msg => (.err .invalidArgument msg, insertStore)
  | none =>
    match probeStore.find? (registerFilter req) with
    | some _ =>
      (.err .alreadyExists "user with this email, username or phone already exists", insertStore)
    | none =>
      let user := newUserDoc req now
      if duplicateKey insertStore user then
        (.err .alreadyExists "user with these details already exists", insertStore)
      else
        (.ok { userName := user.userName, message := "Registered successfully", success := true },
          insertStore ++ [user])

/-- The handler `LoginUser` from `server/main.go`: a single `FindOne` on
`email = strings.ToLower(req.GetEmail())` (no trimming), returning the
stored fields verbatim, or `NotFound` with "Invalid credentials".  The
result pairs the outcome with the collection state after the call. -/
def LoginUser (store : List User) (email : String) : LoginOutcome × List User :=
  match store.find? (fun u => u.emailAddress == goToLower email) with
  | none => (.err .notFound "Invalid credentials", store)
  | some user =>
    (.ok { email := user.emailAddress, userName := user.userName, password := user.passwordHash },
      store)

/-- The phone-normalization procedure of the amended claim, written for
refinement comparison against `normalizePhoneNumber`: trim whitespace,
strip all interior spaces; if the result starts with `0` and has UTF-8
byte length 10 (what Go's `len` computes), replace the leading `0` with
`254`; else if it starts with `7` and has byte length 9, prepend `254`;
else return unchanged.  Reading "length" as character count instead
makes the procedure disagree with the code on multi-byte input. -/
def normalizePhoneSpec (s : String) : String :=
  let r : String := ⟨stripSpaces (trimList s.data)⟩
  if goStartsWith r "0" && (goLen r == 10) then "254" ++ (⟨r.data.drop 1⟩ : String)
  else if goStartsWith r "7" && (goLen r == 9) then "254" ++ r
  else r

/-! Whitespace and trimming lemmas -/

/-- The head rune, if any, is not whitespace. -/
def noSpaceHead (l : List Char) : Prop :=
  ∀ c, l.head? = some c → goIsSpace c = false

/-- The last rune, if any, is not whitespace. -/
def noSpaceLast (l : List Char) : Prop :=
  ∀ c, l.getLast? = some c → goIsSpace c = false


theorem dropWhile_eq_self_of_noSpaceHead {l : List Char} (h : noSpaceHead l) :
    l.dropWhile goIsSpace = l := by
  cases l with
  | nil => rfl
  | cons a t =>
    have ha : goIsSpace a = false := h a rfl
    simp [List.dropWhile_cons, ha]

theorem trimList_eq_rdropWhile (l : List Char) :
    trimList l = List.rdropWhile goIsSpace (l.dropWhile goIsSpace) := rfl

theorem trimList_eq_self {l : List Char} (h1 : noSpaceHead l) (h2 : noSpaceLast l) :
    trimList l = l := by
  rw [trimList_eq_rdropWhile, dropWhile_eq_self_of_noSpaceHead h1,
    List.rdropWhile_eq_self_iff]
  intro hl
  have hlast := List.getLast?_eq_getLast l hl
  have := h2 _ hlast
  simp [this]

theorem noSpaceHead_trimList (l : List Char) : noSpaceHead (trimList l) := by
  intro c hc
  have hpre : trimList l <+: l.dropWhile goIsSpace := by
    rw [trimList_eq_rdropWhile]; exact List.rdropWhile_prefix _ _
  obtain ⟨t, ht⟩ := hpre
  have hhd : (l.dropWhile goIsSpace).head? = some c := by
    rw [← ht, List.head?_append, hc]; rfl
  have hnot := List.head?_dropWhile_not goIsSpace l
  rw [hhd] at hnot
  exact hnot

theorem noSpaceLast_trimList (l : List Char) : noSpaceLast (trimList l) := by
  intro c hc
  rw [trimList_eq_rdropWhile] at hc
  have hne : List.rdropWhile goIsSpace (l.dropWhile goIsSpace) ≠ [] := by
    intro h; rw [h] at hc; simp at hc
  have hlast := List.rdropWhile_last_not
    (p := goIsSpace) (l := l.dropWhile goIsSpace) hne
  rw [List.getLast?_eq_getLast _ hne] at hc
  injection hc with hc
  rw [← hc]
  simpa using hlast

theorem goIsSpace_space : goIsSpace ' ' = true := by decide

theorem ne_space_of_not_goIsSpace {c : Char} (h : goIsSpace c = false) : c ≠ ' ' := by
  intro he; rw [he] at h; exact absurd h (by decide)

theorem noSpaceHead_stripSpaces {l : List Char} (h : noSpaceHead l) :
    noSpaceHead (stripSpaces l) := by
  cases l with
  | nil => intro c hc; simp [stripSpaces] at hc
  | cons a t =>
    have ha : goIsSpace a = false := h a rfl
    have ha' : (a != ' ') = true := by
      simpa using ne_space_of_not_goIsSpace ha
    intro c hc
    rw [show stripSpaces (a :: t) = a :: stripSpaces t by
      simp [stripSpaces, List.filter_cons, ha']] at hc
    injection hc with hc
    rw [← hc]; exact ha

theorem noSpaceLast_stripSpaces {l : List Char} (h : noSpaceLast l) :
    noSpaceLast (stripSpaces l) := by
  intro c hc
  rw [← List.head?_reverse] at hc
  rw [show (stripSpaces l).reverse = stripSpaces l.reverse from
    (List.filter_reverse _ _).symm] at hc
  have h' : noSpaceHead l.reverse := by
    intro d hd; rw [List.head?_reverse] at hd; exact h d hd
  exact noSpaceHead_stripSpaces h' c hc

theorem not_space_mem_stripSpaces (l : List Char) : ∀ c ∈ stripSpaces l, c ≠ ' ' := by
  intro c hc
  have := (List.mem_filter.mp hc).2
  simpa using this

theorem stripSpaces_eq_self {l : List Char} (h : ∀ c ∈ l, c ≠ ' ') :
    stripSpaces l = l :=
  List.filter_eq_self.mpr (fun c hc => by simpa using h c hc)

theorem prenorm_eq_self {l : List Char} (h1 : noSpaceHead l) (h2 : noSpaceLast l)
    (h3 : ∀ c ∈ l, c ≠ ' ') : stripSpaces (trimList l) = l := by
  rw [trimList_eq_self h1 h2]; exact stripSpaces_eq_self h3

/-! Lower-casing lemmas -/

theorem char_toNat_ofNat {n : Nat} (h : n.isValidChar) : (Char.ofNat n).toNat = n := by
  unfold Char.ofNat
  rw [dif_pos h]
  rfl

theorem toLower_of_upper {c : Char} (h : c.toNat ≥ 65 ∧ c.toNat ≤ 90) :
    Char.toLower c = Char.ofNat (c.toNat + 32) := by
  simp only [Char.toLower]
  rw [if_pos h]

theorem toLower_of_not_upper {c : Char} (h : ¬(c.toNat ≥ 65 ∧ c.toNat ≤ 90)) :
    Char.toLower c = c := by
  simp only [Char.toLower]
  rw [if_neg h]

theorem toLower_toLower (c : Char) :
    Char.toLower (Char.toLower c) = Char.toLower c := by
  by_cases h : c.toNat ≥ 65 ∧ c.toNat ≤ 90
  · rw [toLower_of_upper h]
    have hv : (c.toNat + 32).isValidChar := Or.inl (by omega)
    apply toLower_of_not_upper
    rw [char_toNat_ofNat hv]
    omega
  · rw [toLower_of_not_upper h, toLower_of_not_upper h]

theorem goIsSpace_toLower (c : Char) : goIsSpace (Char.toLower c) = goIsSpace c := by
  by_cases h : c.toNat ≥ 65 ∧ c.toNat ≤ 90
  · rw [toLower_of_upper h]
    have hv : (c.toNat + 32).isValidChar := Or.inl (by omega)
    unfold goIsSpace
    rw [char_toNat_ofNat hv]
    have e1 : ¬ isSpaceCode (c.toNat + 32) := by unfold isSpaceCode; omega
    have e2 : ¬ isSpaceCode c.toNat := by unfold isSpaceCode; omega
    simp [e1, e2]
  · rw [toLower_of_not_upper h]

theorem noSpaceHead_map_toLower {l : List Char} (h : noSpaceHead l) :
    noSpaceHead (l.map Char.toLower) := by
  intro c hc
  rw [List.head?_map] at hc
  cases hl : l.head? with
  | none => rw [hl] at hc; simp at hc
  | some a =>
    rw [hl] at hc
    simp only [Option.map_some'] at hc
    injection hc with hc
    rw [← hc, goIsSpace_toLower]
    exact h a hl

theorem noSpaceLast_map_toLower {l : List Char} (h : noSpaceLast l) :
    noSpaceLast (l.map Char.toLower) := by
  intro c hc
  rw [List.getLast?_map] at hc
  cases hl : l.getLast? with
  | none => rw [hl] at hc; simp at hc
  | some a =>
    rw [hl] at hc
    simp only [Option.map_some'] at hc
    injection hc with hc
    rw [← hc, goIsSpace_toLower]
    exact h a hl

/-! Idempotence of the normalizers -/

theorem noSpaceLast_tail {m : List Char} (h : noSpaceLast m) : noSpaceLast m.tail := by
  intro c hc
  cases m with
  | nil => simp at hc
  | cons a t =>
    apply h c
    cases t with
    | nil => simp at hc
    | cons b t' => simpa [List.getLast?_cons_cons] using hc

theorem noSpaceLast_cons254 {x : List Char} (h : noSpaceLast x) :
    noSpaceLast ('2' :: '5' :: '4' :: x) := by
  intro c hc
  cases x with
  | nil =>
    rw [show (['2', '5', '4'] : List Char).getLast? = some '4' from rfl] at hc
    injection hc with hc
    rw [← hc]; decide
  | cons b t =>
    simp only [List.getLast?_cons_cons] at hc
    exact h c hc

theorem noSpaceHead_cons254 (x : List Char) : noSpaceHead ('2' :: '5' :: '4' :: x) := by
  intro c hc
  injection hc with hc
  rw [← hc]; decide

theorem not_space_mem_cons254 {x : List Char} (h : ∀ c ∈ x, c ≠ ' ') :
    ∀ c ∈ ('2' :: '5' :: '4' :: x), c ≠ ' ' := by
  intro c hc
  simp only [List.mem_cons] at hc
  rcases hc with rfl | rfl | rfl | hc
  · decide
  · decide
  · decide
  · exact h c hc

/-- Unfolding of `normalizePhoneNumber` on an explicit rune list. -/
theorem normalizePhoneNumber_def (l : List Char) :
    normalizePhoneNumber ⟨l⟩ =
      (if goStartsWith ⟨stripSpaces (trimList l)⟩ "0" &&
          (goLen ⟨stripSpaces (trimList l)⟩ == 10)
       then "254" ++ (⟨(stripSpaces (trimList l)).tail⟩ : String)
       else if goStartsWith ⟨stripSpaces (trimList l)⟩ "7" &&
          (goLen ⟨stripSpaces (trimList l)⟩ == 9)
       then "254" ++ (⟨stripSpaces (trimList l)⟩ : String)
       else ⟨stripSpaces (trimList l)⟩) := rfl

/-- A string already trimmed, space-free, and matching neither rewrite guard
is a fixed point of `normalizePhoneNumber`. -/
theorem normalizePhone_fix {o : String}
    (h1 : noSpaceHead o.data) (h2 : noSpaceLast o.data) (h3 : ∀ c ∈ o.data, c ≠ ' ')
    (hg0 : (goStartsWith o "0" && (goLen o == 10)) = false)
    (hg7 : (goStartsWith o "7" && (goLen o == 9)) = false) :
    normalizePhoneNumber o = o := by
  obtain ⟨l⟩ := o
  have hpre : stripSpaces (trimList l) = l := prenorm_eq_self h1 h2 h3
  rw [normalizePhoneNumber_def, hpre, hg0, hg7]
  simp

theorem normalizePhoneNumber_idem (s : String) :
    normalizePhoneNumber (normalizePhoneNumber s) = normalizePhoneNumber s := by
  obtain ⟨l⟩ := s
  rw [normalizePhoneNumber_def l]
  have hm1 : noSpaceHead (stripSpaces (trimList l)) :=
    noSpaceHead_stripSpaces (noSpaceHead_trimList l)
  have hm2 : noSpaceLast (stripSpaces (trimList l)) :=
    noSpaceLast_stripSpaces (noSpaceLast_trimList l)
  have hm3 : ∀ c ∈ stripSpaces (trimList l), c ≠ ' ' :=
    not_space_mem_stripSpaces (trimList l)
  set m : List Char := stripSpaces (trimList l) with hmdef
  by_cases h0 : (goStartsWith ⟨m⟩ "0" && (goLen ⟨m⟩ == 10)) = true
  · rw [if_pos h0]
    apply normalizePhone_fix
    · exact noSpaceHead_cons254 m.tail
    · exact noSpaceLast_cons254 (noSpaceLast_tail hm2)
    · exact not_space_mem_cons254 (fun c hc => hm3 c (List.mem_of_mem_tail hc))
    · rw [show goStartsWith ("254" ++ (⟨m.tail⟩ : String)) "0" = false by
        simp [goStartsWith, List.isPrefixOf]]
      simp
    · rw [show goStartsWith ("254" ++ (⟨m.tail⟩ : String)) "7" = false by
        simp [goStartsWith, List.isPrefixOf]]
      simp
  · rw [if_neg h0]
    by_cases h7 : (goStartsWith ⟨m⟩ "7" && (goLen ⟨m⟩ == 9)) = true
    · rw [if_pos h7]
      apply normalizePhone_fix
      · exact noSpaceHead_cons254 m
      · exact noSpaceLast_cons254 hm2
      · exact not_space_mem_cons254 hm3
      · rw [show goStartsWith ("254" ++ (⟨m⟩ : String)) "0" = false by
          simp [goStartsWith, List.isPrefixOf]]
        simp
      · rw [show goStartsWith ("254" ++ (⟨m⟩ : String)) "7" = false by
          simp [goStartsWith, List.isPrefixOf]]
        simp
    · rw [if_neg h7]
      exact normalizePhone_fix hm1 hm2 hm3 (by simpa using h0) (by simpa using h7)

theorem lowerTrim_idem (s : String) :
    goToLower (goTrimSpace (goToLower (goTrimSpace s))) = goToLower (goTrimSpace s) := by
  obtain ⟨l⟩ := s
  have h1 : noSpaceHead ((trimList l).map Char.toLower) :=
    noSpaceHead_map_toLower (noSpaceHead_trimList l)
  have h2 : noSpaceLast ((trimList l).map Char.toLower) :=
    noSpaceLast_map_toLower (noSpaceLast_trimList l)
  show goToLower ⟨trimList ((trimList l).map Char.toLower)⟩ =
    ⟨(trimList l).map Char.toLower⟩
  rw [trimList_eq_self h1 h2]
  show (⟨((trimList l).map Char.toLower).map Char.toLower⟩ : String) = _
  rw [List.map_map]
  exact congrArg String.mk
    (List.map_congr_left (fun c _ => toLower_toLower c))

/-- The function `validateRegistration` with every branch condition restated as a
proposition: the rule chain in the order the source applies it. -/
theorem validateRegistration_spec (req : RegisterMessageRequest) :
    validateRegistration req =
      if goTrimSpace req.fullName = "" then some "full name is required"
      else if goLen (goTrimSpace req.userName) < 4 then
        some "username must be at least 4 characters"
      else if ∃ c ∈ (goTrimSpace req.userName).data,
          unicodeIsLetter c = false ∧ unicodeIsNumber c = false then
        some "username can only contain letters and numbers"
      else if goContains (goTrimSpace req.emailAddress) "@" = false ∨
          goContains (goTrimSpace req.emailAddress) "." = false then
        some "invalid email format"
      else if goLen (normalizePhoneNumber req.phoneNumber) ≠ 12 ∨
          goStartsWith (normalizePhoneNumber req.phoneNumber) "254" = false then
        some "phone must be in 254XXXXXXXXX format (12 digits)"
      else none := by
  unfold validateRegistration
  by_cases hA : goTrimSpace req.fullName = ""
  · rw [if_pos (beq_iff_eq.mpr hA), if_pos hA]
  · rw [if_neg (by simpa using hA), if_neg hA]
    by_cases hB : goLen (goTrimSpace req.userName) < 4
    · rw [if_pos hB, if_pos hB]
    · rw [if_neg hB, if_neg hB]
      by_cases hC : ∃ c ∈ (goTrimSpace req.userName).data,
          unicodeIsLetter c = false ∧ unicodeIsNumber c = false
      · have : isAlphanumeric (goTrimSpace req.userName) = false := by
          unfold isAlphanumeric
          rw [List.all_eq_false]
          obtain ⟨c, hc, h1, h2⟩ := hC
          exact ⟨c, hc, by simp [h1, h2]⟩
        rw [if_pos (by simp [this]), if_pos hC]
      · have : isAlphanumeric (goTrimSpace req.userName) = true := by
          unfold isAlphanumeric
          rw [List.all_eq_true]
          intro c hc
          by_contra hcon
          exact hC ⟨c, hc, by simpa [Bool.or_eq_false_iff] using hcon⟩
        rw [if_neg (by simp [this]), if_neg hC]
        by_cases hD : goContains (goTrimSpace req.emailAddress) "@" = false ∨
            goContains (goTrimSpace req.emailAddress) "." = false
        · have hDb : (!goContains (goTrimSpace req.emailAddress) "@" ||
              !goContains (goTrimSpace req.emailAddress) ".") = true := by
            rcases hD with hD | hD <;> simp [hD]
          rw [if_pos hDb, if_pos hD]
        · have hDb : ¬((!goContains (goTrimSpace req.emailAddress) "@" ||
              !goContains (goTrimSpace req.emailAddress) ".") = true) := by
            push_neg at hD
            simp [Bool.ne_false_iff.mp hD.1, Bool.ne_false_iff.mp hD.2]
          rw [if_neg hDb, if_neg hD]
          by_cases hE : goLen (normalizePhoneNumber req.phoneNumber) ≠ 12 ∨
              goStartsWith (normalizePhoneNumber req.phoneNumber) "254" = false
          · have hEb : ((goLen (normalizePhoneNumber req.phoneNumber) != 12) ||
                !goStartsWith (normalizePhoneNumber req.phoneNumber) "254") = true := by
              rcases hE with hE | hE <;> simp [hE]
            rw [if_pos hEb, if_pos hE]
          · have hEb : ¬(((goLen (normalizePhoneNumber req.phoneNumber) != 12) ||
                !goStartsWith (normalizePhoneNumber req.phoneNumber) "254") = true) := by
              push_neg at hE
              simp [hE.1, Bool.ne_false_iff.mp hE.2]
            rw [if_neg hEb, if_neg hE]

/-! Claim theorems -/

/-- C4 fails under the character-count reading of "has length 10": the
string "0€€€€€€€€€" is its own trim-and-strip result, starts with "0"
and has exactly 10 characters, so the claimed procedure would replace
the leading "0" with "254" — but the code compares Go's byte length
(28 here) and returns the string unchanged. -/
theorem normalizePhone_charlen_cex :
    ("0€€€€€€€€€" : String).data.length = 10 ∧
    goStartsWith "0€€€€€€€€€" "0" = true ∧
    goTrimSpace "0€€€€€€€€€" = "0€€€€€€€€€" ∧
    stripSpaces ("0€€€€€€€€€" : String).data = ("0€€€€€€€€€" : String).data ∧
    normalizePhoneNumber "0€€€€€€€€€" = "0€€€€€€€€€" ∧
    ("0€€€€€€€€€" : String) ≠ "254€€€€€€€€€" := by decide

/-- C4 (amended): phone normalization trims surrounding whitespace and
strips all interior spaces; a result starting with "0" of UTF-8 byte
length 10 (Go's `len`, rather than character count) has the leading "0"
replaced by "254", a result starting with "7" of byte length 9 gets
"254" prepended, anything else is returned unchanged; in particular
"0712345678" and "712345678" map to "254712345678", while
"254712345678" and "12345" are unchanged. -/
theorem normalizePhone_spec_conformance :
    (∀ s, normalizePhoneNumber s = normalizePhoneSpec s) ∧
    normalizePhoneNumber "0712345678" = "254712345678" ∧
    normalizePhoneNumber "712345678" = "254712345678" ∧
    normalizePhoneNumber "254712345678" = "254712345678" ∧
    normalizePhoneNumber "12345" = "12345" := by
  refine ⟨fun s => ?_, by decide, by decide, by decide, by decide⟩
  simp only [normalizePhoneNumber, normalizePhoneSpec, List.drop_one]

/-- C5: validation applies its rules in the fixed order full name,
username length, username characters, email, phone, and reports exactly
the first violated rule: each conjunct below fixes the earlier rules'
verdicts and lets every later field be arbitrary, and the last conjunct
shows success when no rule fires; in particular an input whose trimmed
full name is empty reports the empty-full-name rule whatever the other
fields contain. -/
theorem validation_first_failure (req : RegisterMessageRequest) :
    (goTrimSpace req.fullName = "" →
      validateRegistration req = some "full name is required") ∧
    (goTrimSpace req.fullName ≠ "" → goLen (goTrimSpace req.userName) < 4 →
      validateRegistration req = some "username must be at least 4 characters") ∧
    (goTrimSpace req.fullName ≠ "" → 4 ≤ goLen (goTrimSpace req.userName) →
      (∃ c ∈ (goTrimSpace req.userName).data,
        unicodeIsLetter c = false ∧ unicodeIsNumber c = false) →
      validateRegistration req = some "username can only contain letters and numbers") ∧
    (goTrimSpace req.fullName ≠ "" → 4 ≤ goLen (goTrimSpace req.userName) →
      isAlphanumeric (goTrimSpace req.userName) = true →
      (goContains (goTrimSpace req.emailAddress) "@" = false ∨
        goContains (goTrimSpace req.emailAddress) "." = false) →
      validateRegistration req = some "invalid email format") ∧
    (goTrimSpace req.fullName ≠ "" → 4 ≤ goLen (goTrimSpace req.userName) →
      isAlphanumeric (goTrimSpace req.userName) = true →
      goContains (goTrimSpace req.emailAddress) "@" = true →
      goContains (goTrimSpace req.emailAddress) "." = true →
      (goLen (normalizePhoneNumber req.phoneNumber) ≠ 12 ∨
        goStartsWith (normalizePhoneNumber req.phoneNumber) "254" = false) →
      validateRegistration req =
        some "phone must be in 254XXXXXXXXX format (12 digits)") ∧
    (goTrimSpace req.fullName ≠ "" → 4 ≤ goLen (goTrimSpace req.userName) →
      isAlphanumeric (goTrimSpace req.userName) = true →
      goContains (goTrimSpace req.emailAddress) "@" = true →
      goContains (goTrimSpace req.emailAddress) "." = true →
      goLen (normalizePhoneNumber req.phoneNumber) = 12 →
      goStartsWith (normalizePhoneNumber req.phoneNumber) "254" = true →
      validateRegistration req = none) := by
  have alnum_no_bad : ∀ (h : isAlphanumeric (goTrimSpace req.userName) = true),
      ¬ ∃ c ∈ (goTrimSpace req.userName).data,
        unicodeIsLetter c = false ∧ unicodeIsNumber c = false := by
    rintro h ⟨c, hc, h1, h2⟩
    have := List.all_eq_true.mp h c hc
    simp [h1, h2] at this
  refine ⟨fun hA => ?_, fun hA hB => ?_, fun hA hB hC => ?_,
    fun hA hB hC hD => ?_, fun hA hB hC hD1 hD2 hE => ?_,
    fun hA hB hC hD1 hD2 hE1 hE2 => ?_⟩
  · rw [validateRegistration_spec, if_pos hA]
  · rw [validateRegistration_spec, if_neg hA, if_pos hB]
  · rw [validateRegistration_spec, if_neg hA, if_neg (by omega), if_pos hC]
  · rw [validateRegistration_spec, if_neg hA, if_neg (by omega),
      if_neg (alnum_no_bad hC), if_pos hD]
  · rw [validateRegistration_spec, if_neg hA, if_neg (by omega),
      if_neg (alnum_no_bad hC),
      if_neg (by rintro (h | h) <;> simp_all), if_pos hE]
  · rw [validateRegistration_spec, if_neg hA, if_neg (by omega),
      if_neg (alnum_no_bad hC),
      if_neg (by rintro (h | h) <;> simp_all),
      if_neg (by rintro (h | h) <;> simp_all)]

/-- C6: normalization is idempotent: `normalizePhoneNumber` applied to
its own output is the identity, and so is the trim-then-lower-case
normalization used for usernames and emails. -/
theorem normalization_idempotent (s : String) :
    normalizePhoneNumber (normalizePhoneNumber s) = normalizePhoneNumber s ∧
    goToLower (goTrimSpace (goToLower (goTrimSpace s))) = goToLower (goTrimSpace s) :=
  ⟨normalizePhoneNumber_idem s, lowerTrim_idem s⟩

/-- C7: a login whose lower-cased email matches no stored account yields
`NotFound` with message exactly "Invalid credentials"; a login that finds
an account returns its stored email, username and password hash
unchanged. -/
theorem loginUser_credentials (store : List User) (email : String) :
    ((∀ u ∈ store, u.emailAddress ≠ goToLower email) →
      LoginUser store email = (.err .notFound "Invalid credentials", store)) ∧
    (∀ u, store.find? (fun v => v.emailAddress == goToLower email) = some u →
      LoginUser store email =
        (.ok ⟨u.emailAddress, u.userName, u.passwordHash⟩, store)) := by
  constructor
  · intro h
    have hf : store.find? (fun v => v.emailAddress == goToLower email) = none :=
      List.find?_eq_none.mpr (fun u hu => by simpa using h u hu)
    simp only [LoginUser, hf]
  · intro u hu
    simp only [LoginUser, hu]

theorem loginUser_credentials_witness :
    LoginUser [] "nobody@example.com" = (.err .notFound "Invalid credentials", []) ∧
    LoginUser [⟨"Jane Doe", "janed1", "jane@example.com", "254712345678", "h4sh", 0, 0⟩]
        "Jane@Example.com" =
      (.ok ⟨"jane@example.com", "janed1", "h4sh"⟩,
        [⟨"Jane Doe", "janed1", "jane@example.com", "254712345678", "h4sh", 0, 0⟩]) :=
  ⟨(loginUser_credentials [] "nobody@example.com").1 (by decide),
    (loginUser_credentials _ "Jane@Example.com").2
      ⟨"Jane Doe", "janed1", "jane@example.com", "254712345678", "h4sh", 0, 0⟩
      (by decide)⟩

/-- C8: a registration request that fails validation terminates with an
invalid-argument outcome carrying exactly the violated rule's text, and
the store is left untouched whatever its contents (the probe and insert
are never reached: the outcome is the same for every store snapshot). -/
theorem registerUser_invalid_argument (s1 s2 : List User)
    (req : RegisterMessageRequest) (now : Nat) (msg : String)
    (hv : validateRegistration req = some msg) :
    RegisterUser s1 s2 req now = (.err .invalidArgument msg, s2) := by
  simp only [RegisterUser, hv]

theorem registerUser_invalid_argument_witness :
    RegisterUser [] [] ⟨"", "abcd", "a@b.c", "0712345678", "x"⟩ 0 =
      (.err .invalidArgument "full name is required", []) :=
  registerUser_invalid_argument [] [] _ 0 "full name is required" (by decide)

theorem validation_first_failure_witness :
    validateRegistration ⟨"   ", "ab", "bad", "12", "x"⟩ = some "full name is required" ∧
    validateRegistration ⟨"Jane", "ab#d", "bademail", "12", "x"⟩ =
      some "username can only contain letters and numbers" ∧
    validateRegistration ⟨"Jane", "abcd", "a@b.c", "12345", "x"⟩ =
      some "phone must be in 254XXXXXXXXX format (12 digits)" ∧
    validateRegistration ⟨"Jane", "abcd", "a@b.c", "0712345678", "x"⟩ = none :=
  ⟨(validation_first_failure _).1 (by decide),
    (validation_first_failure _).2.2.1 (by decide) (by decide) (by decide),
    (validation_first_failure _).2.2.2.2.1 (by decide) (by decide) (by decide)
      (by decide) (by decide) (by decide),
    (validation_first_failure _).2.2.2.2.2 (by decide) (by decide) (by decide)
      (by decide) (by decide) (by decide) (by decide)⟩

/-- A request that passes validation has a normalized phone of byte
length 12 starting with "254". -/
theorem validate_none_phone {req : RegisterMessageRequest}
    (hv : validateRegistration req = none) :
    goLen (normalizePhoneNumber req.phoneNumber) = 12 ∧
    goStartsWith (normalizePhoneNumber req.phoneNumber) "254" = true := by
  rw [validateRegistration_spec] at hv
  split_ifs at hv with h1 h2 h3 h4 h5
  push_neg at h5
  exact ⟨h5.1, Bool.ne_false_iff.mp h5.2⟩

/-- C10: `LoginUser` validates nothing: whatever the email string, it
looks the lower-cased value up directly, leaves the store untouched, and
its outcome is either the stored account's data or the generic not-found
error — never an invalid-argument outcome. -/
theorem loginUser_no_validation (store : List User) (email : String) :
    (LoginUser store email).2 = store ∧
    ((∃ u, u ∈ store ∧ u.emailAddress = goToLower email ∧
        (LoginUser store email).1 =
          .ok ⟨u.emailAddress, u.userName, u.passwordHash⟩) ∨
      (LoginUser store email).1 = .err .notFound "Invalid credentials") := by
  cases hf : store.find? (fun v => v.emailAddress == goToLower email) with
  | none =>
    constructor
    · simp only [LoginUser, hf]
    · right; simp only [LoginUser, hf]
  | some u =>
    constructor
    · simp only [LoginUser, hf]
    · left
      exact ⟨u, List.mem_of_find?_eq_some hf,
        by simpa using List.find?_some hf,
        by simp only [LoginUser, hf]⟩

/-- C9: registering Jane's request against a store with no conflicting
account succeeds, persists the normalized account
(user_name "janed1", email "jane@example.com", phone "254712345678"),
and responds with success and the stored username. -/
theorem register_jane_end_to_end (store : List User) (now : Nat)
    (hno : ∀ u ∈ store, u.emailAddress ≠ "jane@example.com" ∧
      u.userName ≠ "janed1" ∧ u.phoneNumber ≠ "254712345678") :
    RegisterUser store store
        ⟨"Jane Doe", "JaneD1", "Jane@Example.com", "0712345678", "x"⟩ now =
      (.ok ⟨"janed1", "Registered successfully", true⟩,
        store ++ [⟨"Jane Doe", "janed1", "jane@example.com", "254712345678", "x", now, now⟩]) := by
  have hfind : store.find?
      (registerFilter ⟨"Jane Doe", "JaneD1", "Jane@Example.com", "0712345678", "x"⟩) = none := by
    apply List.find?_eq_none.mpr
    intro u hu
    obtain ⟨h1, h2, h3⟩ := hno u hu
    simp [registerFilter,
      show goToLower (goTrimSpace "Jane@Example.com") = "jane@example.com" from rfl,
      show goToLower (goTrimSpace "JaneD1") = "janed1" from rfl,
      show normalizePhoneNumber "0712345678" = "254712345678" from rfl,
      h1, h2, h3]
  have hdup : duplicateKey store
      (newUserDoc ⟨"Jane Doe", "JaneD1", "Jane@Example.com", "0712345678", "x"⟩ now) = false := by
    apply List.any_eq_false.mpr
    intro u hu
    obtain ⟨h1, h2, h3⟩ := hno u hu
    simp [newUserDoc,
      show goToLower (goTrimSpace "Jane@Example.com") = "jane@example.com" from rfl,
      show goToLower (goTrimSpace "JaneD1") = "janed1" from rfl,
      show normalizePhoneNumber "0712345678" = "254712345678" from rfl,
      h1, h2, h3]
  simp only [RegisterUser,
    show validateRegistration
      ⟨"Jane Doe", "JaneD1", "Jane@Example.com", "0712345678", "x"⟩ = none from rfl,
    hfind, hdup, Bool.false_eq_true, if_false]
  rfl

theorem register_jane_end_to_end_witness :
    RegisterUser [] [] ⟨"Jane Doe", "JaneD1", "Jane@Example.com", "0712345678", "x"⟩ 0 =
      (.ok ⟨"janed1", "Registered successfully", true⟩,
        [⟨"Jane Doe", "janed1", "jane@example.com", "254712345678", "x", 0, 0⟩]) := by
  simpa using register_jane_end_to_end [] 0 (by simp)

/-- C2 fails as stated: the too-short rejection tests Go's byte length,
not the character count.  The username "€€" has 2 characters (so the
claim demands a too-short rejection) but 6 UTF-8 bytes, and the code
instead rejects it for invalid characters. -/
theorem username_charcount_cex :
    ¬((validateRegistration ⟨"Jane", "€€", "a@b.c", "0712345678", "x"⟩ =
        some "username must be at least 4 characters") ↔
      (goTrimSpace "€€").data.length < 4) := by decide

/-- C2 (amended): with a nonempty trimmed full name, the trimmed username
is rejected as too short exactly when its UTF-8 byte length (what Go's
`len` measures, rather than its character count) is below 4, and
otherwise rejected for invalid characters exactly when some rune is
neither a letter nor a number; "ab1" is rejected as too short, "abc1" is
accepted, "abc-1" is rejected for invalid characters. -/
theorem username_rules_bytes (req : RegisterMessageRequest)
    (hfn : goTrimSpace req.fullName ≠ "") :
    (validateRegistration req = some "username must be at least 4 characters" ↔
      goLen (goTrimSpace req.userName) < 4) ∧
    (validateRegistration req = some "username can only contain letters and numbers" ↔
      (4 ≤ goLen (goTrimSpace req.userName) ∧
        ∃ c ∈ (goTrimSpace req.userName).data,
          unicodeIsLetter c = false ∧ unicodeIsNumber c = false)) ∧
    validateRegistration ⟨"Jane", "ab1", "a@b.c", "0712345678", "x"⟩ =
      some "username must be at least 4 characters" ∧
    validateRegistration ⟨"Jane", "abc1", "a@b.c", "0712345678", "x"⟩ = none ∧
    validateRegistration ⟨"Jane", "abc-1", "a@b.c", "0712345678", "x"⟩ =
      some "username can only contain letters and numbers" := by
  refine ⟨?_, ?_, by decide, by decide, by decide⟩
  · rw [validateRegistration_spec, if_neg hfn]
    by_cases hB : goLen (goTrimSpace req.userName) < 4
    · rw [if_pos hB]; simp [hB]
    · rw [if_neg hB]
      constructor
      · intro h
        exfalso
        split at h
        · exact absurd (Option.some.inj h) (by decide)
        split at h
        · exact absurd (Option.some.inj h) (by decide)
        split at h
        · exact absurd (Option.some.inj h) (by decide)
        · exact Option.noConfusion h
      · intro h; exact absurd h hB
  · rw [validateRegistration_spec, if_neg hfn]
    by_cases hB : goLen (goTrimSpace req.userName) < 4
    · rw [if_pos hB]
      constructor
      · intro h; exact absurd (Option.some.inj h) (by decide)
      · rintro ⟨h4, -⟩; omega
    · rw [if_neg hB]
      by_cases hC : ∃ c ∈ (goTrimSpace req.userName).data,
          unicodeIsLetter c = false ∧ unicodeIsNumber c = false
      · rw [if_pos hC]
        constructor
        · intro _; exact ⟨by omega, hC⟩
        · intro _; rfl
      · rw [if_neg hC]
        constructor
        · intro h
          exfalso
          split at h
          · exact absurd (Option.some.inj h) (by decide)
          split at h
          · exact absurd (Option.some.inj h) (by decide)
          · exact Option.noConfusion h
        · rintro ⟨-, hex⟩; exact absurd hex hC

theorem username_rules_bytes_witness :
    validateRegistration ⟨"Jane", "ab1", "a@b.c", "0712345678", "x"⟩ =
      some "username must be at least 4 characters" :=
  (username_rules_bytes ⟨"Jane", "ab1", "a@b.c", "0712345678", "x"⟩ (by decide)).1.mpr
    (by decide)

/-- C3 fails as stated: the phone rule only checks byte length 12 and the
"254" prefix, never that the remaining runes are digits (nor that there
are 12 characters).  The request below passes validation with phone
"254€ABCDEF", registers successfully, and persists a phone that has 10
characters and is not all digits. -/
theorem registered_phone_digits_cex :
    (RegisterUser [] [] ⟨"Jane Doe", "abcd", "a@b.c", "254€ABCDEF", "x"⟩ 0).1 =
        .ok ⟨"abcd", "Registered successfully", true⟩ ∧
    (RegisterUser [] [] ⟨"Jane Doe", "abcd", "a@b.c", "254€ABCDEF", "x"⟩ 0).2 =
        [⟨"Jane Doe", "abcd", "a@b.c", "254€ABCDEF", "x", 0, 0⟩] ∧
    ¬(("254€ABCDEF" : String).data.length = 12 ∧
      ("254€ABCDEF" : String).data.all Char.isDigit = true) := by decide

/-- C3 (amended): every account persisted by a successful `RegisterUser`
call has a phone of UTF-8 byte length exactly 12 that starts with "254"
(the code enforces nothing beyond these two facts). -/
theorem registered_phone_shape (s1 s2 ns : List User)
    (req : RegisterMessageRequest) (now : Nat) (resp : RegisterMessageResponse)
    (h : RegisterUser s1 s2 req now = (.ok resp, ns)) :
    ∃ u, ns = s2 ++ [u] ∧ goLen u.phoneNumber = 12 ∧
      goStartsWith u.phoneNumber "254" = true := by
  unfold RegisterUser at h
  cases hv : validateRegistration req with
  | some msg => rw [hv] at h; simp at h
  | none =>
    rw [hv] at h
    cases hfind : s1.find? (registerFilter req) with
    | some u => rw [hfind] at h; simp at h
    | none =>
      rw [hfind] at h
      by_cases hd : duplicateKey s2 (newUserDoc req now) = true
      · rw [if_pos hd] at h; simp at h
      · rw [if_neg hd] at h
        refine ⟨newUserDoc req now, ?_, (validate_none_phone hv).1,
          (validate_none_phone hv).2⟩
        have := congrArg Prod.snd h
        simpa using this.symm

theorem registered_phone_shape_witness :
    ∃ u, [(⟨"Jane Doe", "janed1", "jane@example.com", "254712345678", "x", 0, 0⟩ : User)] =
        [] ++ [u] ∧ goLen u.phoneNumber = 12 ∧ goStartsWith u.phoneNumber "254" = true :=
  registered_phone_shape [] []
    [⟨"Jane Doe", "janed1", "jane@example.com", "254712345678", "x", 0, 0⟩]
    ⟨"Jane Doe", "JaneD1", "Jane@Example.com", "0712345678", "x"⟩ 0
    ⟨"janed1", "Registered successfully", true⟩ (by decide)

/-- C1: for a validated request, a pre-insert probe hit on the normalized
email, username or phone (logical OR) aborts with the already-exists
outcome "user with this email, username or phone already exists" and no
insert is performed; if the probe misses but the insert's store snapshot
holds a colliding document, the duplicate-key report also aborts with an
already-exists outcome. -/
theorem registerUser_uniqueness_conflict (s1 s2 : List User)
    (req : RegisterMessageRequest) (now : Nat)
    (hv : validateRegistration req = none) :
    ((∃ u ∈ s1, u.emailAddress = goToLower (goTrimSpace req.emailAddress) ∨
        u.userName = goToLower (goTrimSpace req.userName) ∨
        u.phoneNumber = normalizePhoneNumber req.phoneNumber) →
      RegisterUser s1 s2 req now =
        (.err .alreadyExists "user with this email, username or phone already exists", s2)) ∧
    ((∀ u ∈ s1, ¬(u.emailAddress = goToLower (goTrimSpace req.emailAddress) ∨
        u.userName = goToLower (goTrimSpace req.userName) ∨
        u.phoneNumber = normalizePhoneNumber req.phoneNumber)) →
      (∃ u ∈ s2, u.emailAddress = goToLower (goTrimSpace req.emailAddress) ∨
        u.userName = goToLower (goTrimSpace req.userName) ∨
        u.phoneNumber = normalizePhoneNumber req.phoneNumber) →
      RegisterUser s1 s2 req now =
        (.err .alreadyExists "user with these details already exists", s2)) := by
  constructor
  · intro hex
    have hsome : (s1.find? (registerFilter req)).isSome := by
      rw [List.find?_isSome]
      obtain ⟨u, hu, hor⟩ := hex
      refine ⟨u, hu, ?_⟩
      simp only [registerFilter, Bool.or_eq_true, beq_iff_eq]
      tauto
    obtain ⟨u, hu⟩ := Option.isSome_iff_exists.mp hsome
    simp only [RegisterUser, hv, hu]
  · intro hnone hex
    have hf : s1.find? (registerFilter req) = none := by
      apply List.find?_eq_none.mpr
      intro u hu
      have := hnone u hu
      simp only [registerFilter, Bool.or_eq_true, beq_iff_eq]
      tauto
    have hd : duplicateKey s2 (newUserDoc req now) = true := by
      rw [duplicateKey, List.any_eq_true]
      obtain ⟨u, hu, hor⟩ := hex
      refine ⟨u, hu, ?_⟩
      simp only [newUserDoc, Bool.or_eq_true, beq_iff_eq]
      tauto
    simp only [RegisterUser, hv, hf, hd, if_true]

theorem registerUser_uniqueness_conflict_witness :
    RegisterUser [⟨"Jane Doe", "janed1", "jane@example.com", "254712345678", "x", 0, 0⟩]
        [⟨"Jane Doe", "janed1", "jane@example.com", "254712345678", "x", 0, 0⟩]
        ⟨"Bob Smith", "bobby1", "Jane@Example.com", "0798765432", "pw"⟩ 3 =
      (.err .alreadyExists "user with this email, username or phone already exists",
        [⟨"Jane Doe", "janed1", "jane@example.com", "254712345678", "x", 0, 0⟩]) :=
  (registerUser_uniqueness_conflict _ _
    ⟨"Bob Smith", "bobby1", "Jane@Example.com", "0798765432", "pw"⟩ 3 (by decide)).1
    (by decide)

end UserService
